import Mathlib

/-!
Shallow embedding of `src/main.py` (company-valuation).

Numbers are modelled as exact rationals.  A pandas access
`stmt.loc[name].iloc[-1]` either yields the last value of the named row or
raises (name absent, or row empty); this is modelled by `getLast` returning
`Option ℚ`.  Python scalar division by zero raises `ZeroDivisionError`;
this is modelled by `pydiv`.  A `try/except` that returns `None` on any
failure is modelled by the `Option` monad; the one place an exception can
escape uncaught (`perform_valuation`'s current-price determination) is
modelled with `Except Unit`.  The yfinance world (`get_financial_data` and
peer `yf.Ticker` lookups) is a parameter `Market : String → Option
FinancialData`, `none` meaning the fetch failed.
-/

namespace CompanyValuation

/-- Python truthiness of an optional numeric: `None` and `0` are falsy. -/
def truthy (x : Option ℚ) : Bool :=
  match x with
  | none => false
  | some v => v != 0

/-- Python scalar division: raises (here: `none`) when the divisor is zero. -/
def pydiv (a b : ℚ) : Option ℚ :=
  if b = 0 then none else some (a / b)

/-- A financial statement: line-item name mapped to its ordered period values
(most recent last), as in the pandas DataFrames of `get_financial_data`. -/
abbrev Stmt := List (String × List ℚ)

/-- `stmt.loc[name].iloc[-1]`: the most recent value of a line item, `none`
when the row is absent or empty (pandas raises in both cases). -/
def getLast (s : Stmt) (name : String) : Option ℚ :=
  (s.lookup name).bind List.getLast?

/-- The `company.info` profile mapping; every field may be absent. -/
structure Info where
  sharesOutstanding : Option ℚ := none
  trailingEPS : Option ℚ := none
  trailingPE : Option ℚ := none
  bookValue : Option ℚ := none
  priceToBook : Option ℚ := none
  enterpriseToEbitda : Option ℚ := none
  enterpriseToRevenue : Option ℚ := none
  currentPrice : Option ℚ := none
  longName : Option String := none
deriving DecidableEq

/-- The per-ticker bundle returned by `get_financial_data`. -/
structure FinancialData where
  histClose : List ℚ := []
  income_stmt : Stmt := []
  balance_sheet : Stmt := []
  cash_flow : Stmt := []
  info : Info := {}
deriving DecidableEq

/-- The external data source: ticker to dataset, `none` = fetch failed. -/
abbrev Market := String → Option FinancialData

/-! ## Line-item resolution (shared fallback chains) -/

/-- Free cash flow (main.py lines 47-53): Operating Cash Flow − |Capital
Expenditure|; if that inner block raises, Operating Cash Flow alone (whose
failure then propagates to the method's outer handler). -/
def freeCashFlow (cf : Stmt) : Option ℚ :=
  match getLast cf "Operating Cash Flow" with
  | none => none
  | some ocf =>
    match getLast cf "Capital Expenditure" with
    | some capex => some (ocf - |capex|)
    | none => some ocf

/-- Cash/debt fallback branch (main.py lines 79-80): each line item is used
if present in the index, else the constant 0; a present-but-empty row still
raises (propagates as `none`). -/
def fallbackCashDebt (bs : Stmt) : Option (ℚ × ℚ) := do
  let c ← if (bs.lookup "Cash And Short Term Investments").isSome
          then getLast bs "Cash And Short Term Investments" else some 0
  let d ← if (bs.lookup "Long Term Debt").isSome
          then getLast bs "Long Term Debt" else some 0
  return (c, d)

/-- Cash and debt resolution (main.py lines 74-80): one `try` reads both
Cash And Cash Equivalents and Total Debt; if either read raises, BOTH fall
to the fallback branch. -/
def resolveCashDebt (bs : Stmt) : Option (ℚ × ℚ) :=
  match getLast bs "Cash And Cash Equivalents", getLast bs "Total Debt" with
  | some c, some d => some (c, d)
  | some _, none => fallbackCashDebt bs
  | none, _ => fallbackCashDebt bs

/-- EPS fallback (main.py lines 108-112): Net Income ÷ shares outstanding
(shares defaulted to 1 when absent from the profile). -/
def epsFallback (fd : FinancialData) : Option ℚ := do
  let ni ← getLast fd.income_stmt "Net Income"
  pydiv ni (fd.info.sharesOutstanding.getD 1)

/-- EPS resolution (main.py lines 106-112): profile trailing EPS when
truthy (present and nonzero), else recomputed from Net Income. -/
def resolveEPS (fd : FinancialData) : Option ℚ :=
  match fd.info.trailingEPS with
  | some e => if e = 0 then epsFallback fd else some e
  | none => epsFallback fd

/-- Book-value-per-share fallback (main.py lines 155-159): Total
Stockholder Equity ÷ shares outstanding. -/
def bvpsFallback (fd : FinancialData) : Option ℚ := do
  let te ← getLast fd.balance_sheet "Total Stockholder Equity"
  pydiv te (fd.info.sharesOutstanding.getD 1)

/-- Book value per share (main.py lines 153-159): profile `bookValue` when
truthy, else recomputed from total equity. -/
def resolveBVPS (fd : FinancialData) : Option ℚ :=
  match fd.info.bookValue with
  | some b => if b = 0 then bvpsFallback fd else some b
  | none => bvpsFallback fd

/-- EBITDA resolution (main.py lines 200-212): EBIT + D&A (D&A falling back
to the cash-flow statement's Depreciation); if that whole block raises,
Income Before Tax plus |Interest Expense| when that row is present. -/
def resolveEBITDA (fd : FinancialData) : Option ℚ :=
  match (do
    let ebit ← getLast fd.income_stmt "EBIT"
    let dep ← match getLast fd.income_stmt "Depreciation And Amortization" with
      | some d => some d
      | none => getLast fd.cash_flow "Depreciation"
    return ebit + dep : Option ℚ) with
  | some e => some e
  | none => do
    let ibt ← getLast fd.income_stmt "Income Before Tax"
    if (fd.income_stmt.lookup "Interest Expense").isSome then do
      let ie ← getLast fd.income_stmt "Interest Expense"
      return ibt + |ie|
    else
      return ibt

/-! ## Peer multiples -/

/-- The positive peer multiples collected from `f` of each successfully
fetched peer's profile (failed fetch or absent/non-positive value skipped),
as in the peer loops of `pe_valuation` and friends. -/
def peerPositives (market : Market) (peers : List String) (f : Info → Option ℚ) : List ℚ :=
  peers.filterMap fun t =>
    match (market t).bind fun d => f d.info with
    | some v => if 0 < v then some v else none
    | none => none

/-- The multiple used by the single-multiple methods (main.py lines
115-133 and analogues): peer average of positive values when peers are
given and at least one value was usable, else the subject's own profile
value, else the industry-default constant. -/
def chooseMultiple (market : Market) (peers : List String) (f : Info → Option ℚ)
    (own : Option ℚ) (dflt : ℚ) : ℚ :=
  if peers = [] then own.getD dflt
  else
    let rs := peerPositives market peers f
    if rs = [] then own.getD dflt else rs.sum / rs.length

/-! ## DCF method -/

/-- Projected cash flows (main.py lines 56-59): `free_cash_flow * (1 +
growth_rate) ** i` for `i = 1 .. years`. -/
def projectedFlows (f g : ℚ) (years : ℕ) : List ℚ :=
  (List.range years).map fun i => f * (1 + g) ^ (i + 1)

/-- The intermediate figures of `dcf_valuation` before the per-share step. -/
structure DCFCore where
  enterprise_value : ℚ
  equity_value : ℚ
  terminal_value : ℚ
  projected_cash_flows : List ℚ
  present_values : List ℚ
deriving DecidableEq

/-- `dcf_valuation` up to and including the equity value (main.py lines
42-82): projection, terminal value, discounting, enterprise value, cash and
debt resolution. -/
def dcfEquity (fd : FinancialData) (growth_rate discount_rate terminal_growth_rate : ℚ)
    (years : ℕ) : Option DCFCore := do
  let fcf ← freeCashFlow fd.cash_flow
  let projected := projectedFlows fcf growth_rate years
  let last ← projected.getLast?
  let tv ← pydiv (last * (1 + terminal_growth_rate)) (discount_rate - terminal_growth_rate)
  let pvs ← projected.enum.mapM fun p => pydiv p.2 ((1 + discount_rate) ^ (p.1 + 1))
  let pvt ← pydiv tv ((1 + discount_rate) ^ years)
  let ev := pvs.sum + pvt
  let cd ← resolveCashDebt fd.balance_sheet
  return ⟨ev, ev + cd.1 - cd.2, tv, projected, pvs⟩

/-- The dictionary returned by `dcf_valuation` on success. -/
structure DCFResult where
  enterprise_value : ℚ
  equity_value : ℚ
  dcf_value_per_share : ℚ
  projected_cash_flows : List ℚ
  present_values : List ℚ
  terminal_value : ℚ
deriving DecidableEq

/-- `dcf_valuation` (main.py lines 38-98): any internal failure is caught
and reported as `none`; shares outstanding defaults to 1 when absent. -/
def dcf_valuation (fd : FinancialData) (growth_rate discount_rate terminal_growth_rate : ℚ)
    (years : ℕ) : Option DCFResult :=
  (dcfEquity fd growth_rate discount_rate terminal_growth_rate years).bind fun c =>
    (pydiv c.equity_value (fd.info.sharesOutstanding.getD 1)).map fun ps =>
      ⟨c.enterprise_value, c.equity_value, ps, c.projected_cash_flows,
       c.present_values, c.terminal_value⟩

/-! ## Single-multiple methods: P/E, P/BV, EV/EBITDA -/

/-- The dictionary returned by `pe_valuation` on success. -/
structure PEResult where
  eps : ℚ
  average_pe : ℚ
  pe_value_per_share : ℚ
deriving DecidableEq

/-- `pe_valuation` (main.py lines 100-145): resolve EPS (trailing EPS or
Net Income ÷ shares), choose the multiple (peer average of positive
trailing P/Es, else own trailing P/E, else 15), value = EPS × multiple. -/
def pe_valuation (fd : FinancialData) (market : Market) (peers : List String) :
    Option PEResult := do
  let eps ← resolveEPS fd
  let m := chooseMultiple market peers Info.trailingPE fd.info.trailingPE 15
  return ⟨eps, m, eps * m⟩

/-- The dictionary returned by `pbv_valuation` on success. -/
structure PBVResult where
  bvps : ℚ
  average_pbv : ℚ
  pbv_value_per_share : ℚ
deriving DecidableEq

/-- `pbv_valuation` (main.py lines 147-192): resolve book value per share,
choose the multiple (peer average of positive price-to-book values, else
own, else 2), value = BVPS × multiple. -/
def pbv_valuation (fd : FinancialData) (market : Market) (peers : List String) :
    Option PBVResult := do
  let b ← resolveBVPS fd
  let m := chooseMultiple market peers Info.priceToBook fd.info.priceToBook 2
  return ⟨b, m, b * m⟩

/-- The dictionary returned by `ev_ebitda_valuation` on success. -/
structure EVResult where
  ebitda : ℚ
  average_ev_ebitda : ℚ
  enterprise_value : ℚ
  equity_value : ℚ
  ev_ebitda_value_per_share : ℚ
deriving DecidableEq

/-- `ev_ebitda_valuation` (main.py lines 194-261): resolve EBITDA, choose
the multiple (peer average of positive EV/EBITDA values, else own, else
10), enterprise value = EBITDA × multiple, equity = EV + cash − debt,
per-share = equity ÷ shares (shares defaulting to 1 when absent). -/
def ev_ebitda_valuation (fd : FinancialData) (market : Market) (peers : List String) :
    Option EVResult := do
  let e ← resolveEBITDA fd
  let m := chooseMultiple market peers Info.enterpriseToEbitda fd.info.enterpriseToEbitda 10
  let ev := e * m
  let cd ← resolveCashDebt fd.balance_sheet
  let eq := ev + cd.1 - cd.2
  let ps ← pydiv eq (fd.info.sharesOutstanding.getD 1)
  return ⟨e, m, ev, eq, ps⟩

/-! ## Comparable-multiples method -/

/-- Average of the positive peer values of a profile field, present only
when at least one peer supplied a positive value (main.py lines 278-314). -/
def mmAverage (market : Market) (peers : List String) (f : Info → Option ℚ) : Option ℚ :=
  let vs := peerPositives market peers f
  if vs = [] then none else some (vs.sum / vs.length)

/-- The EV/EBITDA implied per-share value for a given averaged multiple
(main.py lines 347-377): EBITDA × multiple, plus cash − debt, ÷ shares. -/
def evFromMultiple (fd : FinancialData) (m : ℚ) : Option ℚ := do
  let e ← resolveEBITDA fd
  let cd ← resolveCashDebt fd.balance_sheet
  pydiv (e * m + cd.1 - cd.2) (fd.info.sharesOutstanding.getD 1)

/-- The EV/Sales implied per-share value for a given averaged multiple
(main.py lines 379-397): Total Revenue × multiple, plus cash − debt,
÷ shares. -/
def evSalesFromMultiple (fd : FinancialData) (m : ℚ) : Option ℚ := do
  let rev ← getLast fd.income_stmt "Total Revenue"
  let cd ← resolveCashDebt fd.balance_sheet
  pydiv (rev * m + cd.1 - cd.2) (fd.info.sharesOutstanding.getD 1)

/-- The dictionary returned by `market_multiples_valuation`. -/
structure MMResult where
  valPE : Option ℚ
  valPBV : Option ℚ
  valEVEBITDA : Option ℚ
  valEVSales : Option ℚ
  average_valuation : Option ℚ
deriving DecidableEq

/-- `market_multiples_valuation` (main.py lines 263-412): average each of
the four multiples over the positive peer values; for each available
averaged multiple compute the subject's implied per-share value (each in
its own try/except, so a failed target fetch or resolution just skips that
multiple); the output value is the mean of the computed values, `None` when
none were computable. -/
def market_multiples_valuation (market : Market) (ticker : String)
    (peers : List String) : MMResult :=
  let target := market ticker
  let vPE := (mmAverage market peers Info.trailingPE).bind fun m =>
    target.bind fun fd => (resolveEPS fd).map (· * m)
  let vPBV := (mmAverage market peers Info.priceToBook).bind fun m =>
    target.bind fun fd => (resolveBVPS fd).map (· * m)
  let vEV := (mmAverage market peers Info.enterpriseToEbitda).bind fun m =>
    target.bind fun fd => evFromMultiple fd m
  let vSales := (mmAverage market peers Info.enterpriseToRevenue).bind fun m =>
    target.bind fun fd => evSalesFromMultiple fd m
  let vals := [vPE, vPBV, vEV, vSales].filterMap id
  ⟨vPE, vPBV, vEV, vSales,
   if vals = [] then none else some (vals.sum / vals.length)⟩

/-! ## Aggregator -/

/-- The valuations dictionary assembled by `perform_valuation`. -/
structure Report where
  ticker : String
  current_price : ℚ
  company_name : String
  dcf : Option ℚ
  pe : Option ℚ
  pbv : Option ℚ
  evEbitda : Option ℚ
  mm : Option ℚ
  average : Option ℚ
deriving DecidableEq

/-- The most recent historical close, raising when the history is empty
(`hist['Close'].iloc[-1]`, main.py line 427 — NOT inside a try/except). -/
def lastClose (fd : FinancialData) : Except Unit ℚ :=
  match fd.histClose.getLast? with
  | some c => Except.ok c
  | none => Except.error ()

/-- Current-price determination (main.py lines 425-427): profile
`currentPrice` when truthy, else the last historical close (uncaught
failure when the history is empty). -/
def currentPrice (fd : FinancialData) : Except Unit ℚ :=
  match fd.info.currentPrice with
  | some p => if p = 0 then lastClose fd else Except.ok p
  | none => lastClose fd

/-- The per-share values actually entered into the report's dictionary
(main.py lines 436-460): each method's value when its result is truthy
(Market Multiples only when peers were given AND its average value is
truthy, i.e. present and nonzero). -/
def methodEntries (fd : FinancialData) (market : Market) (ticker : String)
    (peers : List String) : Option ℚ × Option ℚ × Option ℚ × Option ℚ × Option ℚ :=
  let dcfV := (dcf_valuation fd (5/100) (1/10) (2/100) 5).map DCFResult.dcf_value_per_share
  let peV := (pe_valuation fd market peers).map PEResult.pe_value_per_share
  let pbvV := (pbv_valuation fd market peers).map PBVResult.pbv_value_per_share
  let evV := (ev_ebitda_valuation fd market peers).map EVResult.ev_ebitda_value_per_share
  let mmV := if peers = [] then none else
    match (market_multiples_valuation market ticker peers).average_valuation with
    | some v => if v = 0 then none else some v
    | none => none
  (dcfV, peV, pbvV, evV, mmV)

/-- The report assembled by `perform_valuation` once the current price is
known (main.py lines 430-465): the method entries and, when at least one
method entry exists, their arithmetic mean as the Average entry. -/
def buildReport (market : Market) (ticker : String) (peers : List String)
    (fd : FinancialData) (price : ℚ) : Report :=
  let e := methodEntries fd market ticker peers
  let vals := [e.1, e.2.1, e.2.2.1, e.2.2.2.1, e.2.2.2.2].filterMap id
  ⟨ticker, price, fd.info.longName.getD ticker,
   e.1, e.2.1, e.2.2.1, e.2.2.2.1, e.2.2.2.2,
   if vals = [] then none else some (vals.sum / vals.length)⟩

/-- `perform_valuation` (main.py lines 414-467): fetch the dataset (`none`
= no report), determine the current price (can raise), run the five
methods, and average the emitted entries (no Average entry when none). -/
def perform_valuation (market : Market) (ticker : String) (peers : List String) :
    Except Unit (Option Report) :=
  match market ticker with
  | none => Except.ok none
  | some fd => do
    let price ← currentPrice fd
    return some (buildReport market ticker peers fd price)

/-- The method values present in a report's dictionary. -/
def emittedValues (rep : Report) : List ℚ :=
  [rep.dcf, rep.pe, rep.pbv, rep.evEbitda, rep.mm].filterMap id

/-! ## Spec-side reference definitions (for refinement claims) -/

/-- Reference DCF per-share computation, written from the spec's words
(§4.2): project `f·(1+g)^i` for `i = 1..years`, terminal value =
last flow × (1+tg)/(r−tg), discount flows at exponents `1..years` and the
terminal value at `years`, enterprise value their sum, equity = EV + cash −
debt, per-share = equity ÷ shares. -/
def specDCFPerShare (f cash debt shares g r tg : ℚ) (years : ℕ) : ℚ :=
  let tv := (f * (1 + g) ^ years) * (1 + tg) / (r - tg)
  let discounted := (List.range years).map fun i => (f * (1 + g) ^ (i + 1)) / (1 + r) ^ (i + 1)
  let ev := discounted.sum + tv / (1 + r) ^ years
  (ev + cash - debt) / shares

/-- Reference P/E multiple, written from the spec's words (§4.3): with
peers, the average of exactly the peers' strictly positive trailing P/E
values; with no peers or no usable peer value, the subject's own profile
trailing P/E; absent that, the constant 15. -/
def specPEMultiple (fd : FinancialData) (market : Market) (peers : List String) : ℚ :=
  let usable := peerPositives market peers Info.trailingPE
  if peers ≠ [] ∧ usable ≠ [] then usable.sum / usable.length
  else match fd.info.trailingPE with
    | some v => v
    | none => 15

/-- Modelled from the spec (§3, §7): the per-share values of exactly the
methods that succeeded on this run — a method succeeded when it produced a
value (for Market Multiples, when peers were given and its output mean was
computable). -/
def succeededValues (market : Market) (fd : FinancialData) (ticker : String)
    (peers : List String) : List ℚ :=
  [(dcf_valuation fd (5/100) (1/10) (2/100) 5).map DCFResult.dcf_value_per_share,
   (pe_valuation fd market peers).map PEResult.pe_value_per_share,
   (pbv_valuation fd market peers).map PBVResult.pbv_value_per_share,
   (ev_ebitda_valuation fd market peers).map EVResult.ev_ebitda_value_per_share,
   if peers = [] then none else
     (market_multiples_valuation market ticker peers).average_valuation].filterMap id

/-- The Average entry of a run of `perform_valuation`, when a report with
one was produced. -/
def reportAverage (x : Except Unit (Option Report)) : Option ℚ :=
  match x with
  | Except.ok (some rep) => rep.average
  | _ => none

/-- The discounted projected flows of the DCF method, in closed form. -/
def dcfPresentValues (f g r : ℚ) (years : ℕ) : List ℚ :=
  (List.range years).map fun i => f * (1 + g) ^ (i + 1) / (1 + r) ^ (i + 1)

/-- The DCF enterprise value in closed form. -/
def dcfEV (f g r tg : ℚ) (years : ℕ) : ℚ :=
  (dcfPresentValues f g r years).sum
    + f * (1 + g) ^ years * (1 + tg) / (r - tg) / (1 + r) ^ years

/-- The end-to-end example dataset of the spec (§8): Operating Cash Flow
1000, Capital Expenditure −200, cash 500, debt 300, 100 shares. -/
def fdExample : FinancialData :=
  { cash_flow := [("Operating Cash Flow", [1000]), ("Capital Expenditure", [-200])],
    balance_sheet := [("Cash And Cash Equivalents", [500]), ("Total Debt", [300])],
    info := { sharesOutstanding := some 100 } }

/-- Dataset with positive free cash flow but debt far above enterprise
value plus cash. -/
def fdBigDebt : FinancialData :=
  { cash_flow := [("Operating Cash Flow", [800])],
    balance_sheet := [("Cash And Cash Equivalents", [0]), ("Total Debt", [1000000])],
    info := { sharesOutstanding := some 100 } }

/-- Dataset whose profile has trailing EPS 5 and no trailing P/E. -/
def fdEPSOnly : FinancialData := { info := { trailingEPS := some 5 } }

/-- Dataset whose profile fields are all present but zero. -/
def fdFalsy : FinancialData :=
  { histClose := [42],
    income_stmt := [("Net Income", [10])],
    balance_sheet := [("Total Stockholder Equity", [20])],
    info := { sharesOutstanding := some 2, trailingEPS := some 0,
              bookValue := some 0, currentPrice := some 0 } }

/-- Dataset with neither a current price nor any historical close. -/
def fdEmptyAll : FinancialData := {}

/-- A market holding only the bare dataset under ticker B. -/
def mktBare : Market := fun t => if t = "B" then some fdEmptyAll else none

/-- Dataset with only a historical close series. -/
def fdHistOnly : FinancialData := { histClose := [7] }

/-- A market holding only the history-only dataset under ticker G. -/
def mktHist : Market := fun t => if t = "G" then some fdHistOnly else none

/-- Subject dataset engineered so DCF fails, P/E yields −10, P/BV yields
10, EV/EBITDA yields 10 and Market Multiples succeeds with exactly 0. -/
def fdMixed : FinancialData :=
  { income_stmt := [("Income Before Tax", [1])],
    info := { sharesOutstanding := some 1, trailingEPS := some (-5),
              bookValue := some 5, currentPrice := some 1 } }

/-- Peer dataset with trailing P/E 2 and price-to-book 2. -/
def fdPeer : FinancialData := { info := { trailingPE := some 2, priceToBook := some 2 } }

/-- Market holding the subject under T and the peer under P. -/
def mktMixed : Market := fun t =>
  if t = "T" then some fdMixed else if t = "P" then some fdPeer else none

/-- The report `perform_valuation` produces on the engineered market. -/
def repMixed : Report :=
  ⟨"T", 1, "T", none, some (-10), some 10, some 10, none, some (10/3)⟩

/-! ## Concrete datasets used by counterexamples and witnesses -/

/-- Dataset with a free cash flow but no profile at all (share count absent). -/
def fdNoShares : FinancialData := { cash_flow := [("Operating Cash Flow", [800])] }

/-- Dataset with a free cash flow and 100 shares outstanding. -/
def fdWithShares : FinancialData :=
  { cash_flow := [("Operating Cash Flow", [800])],
    info := { sharesOutstanding := some 100 } }

/-- Dataset whose profile carries a zero share count. -/
def fdZeroShares : FinancialData := { info := { sharesOutstanding := some 0 } }

/-- A market in which every fetch fails. -/
def mktEmpty : Market := fun _ => none

/-- Balance sheet holding Cash And Cash Equivalents but no Total Debt. -/
def bsOnlyCCE : Stmt := [("Cash And Cash Equivalents", [100])]

/-- Balance sheet holding only the fallback cash and debt line items. -/
def bsFallback : Stmt := [("Cash And Short Term Investments", [7]), ("Long Term Debt", [3])]

/-! ## Helper lemmas -/

lemma pydiv_eq_some (a b : ℚ) (h : b ≠ 0) : pydiv a b = some (a / b) := by
  simp [pydiv, h]

lemma pydiv_zero (a : ℚ) : pydiv a 0 = none := by
  simp [pydiv]

lemma mapM_pydiv_pow (r : ℚ) (hr : r ≠ 0) (l : List (ℕ × ℚ)) :
    l.mapM (fun p => pydiv p.2 (r ^ (p.1 + 1)))
      = some (l.map fun p => p.2 / r ^ (p.1 + 1)) := by
  rw [← List.mapM'_eq_mapM]
  induction l with
  | nil => rfl
  | cons a t ih =>
    have ha := pydiv_eq_some a.2 (r ^ (a.1 + 1)) (pow_ne_zero _ hr)
    simp only [List.mapM', ha, ih, Option.some_bind, Option.bind_eq_bind, List.map_cons]
    rfl

lemma enum_map_range (n : ℕ) (fn : ℕ → ℚ) :
    ((List.range n).map fn).enum = (List.range n).map fun i => (i, fn i) := by
  rw [List.enum_eq_zip_range, List.length_map, List.length_range]
  have h := List.zip_map' (id : ℕ → ℕ) fn (List.range n)
  simpa using h

lemma projectedFlows_getLast (f g : ℚ) (n : ℕ) :
    (projectedFlows f g (n + 1)).getLast? = some (f * (1 + g) ^ (n + 1)) := by
  simp [projectedFlows, List.range_succ]

lemma dcfEquity_eq (fd : FinancialData) (f c d g r tg : ℚ) (years : ℕ)
    (hf : freeCashFlow fd.cash_flow = some f)
    (hcd : resolveCashDebt fd.balance_sheet = some (c, d))
    (hy : 1 ≤ years) (hrt : r - tg ≠ 0) (hr : (1 : ℚ) + r ≠ 0) :
    dcfEquity fd g r tg years = some
      ⟨dcfEV f g r tg years, dcfEV f g r tg years + c - d,
       f * (1 + g) ^ years * (1 + tg) / (r - tg),
       projectedFlows f g years, dcfPresentValues f g r years⟩ := by
  obtain ⟨n, rfl⟩ : ∃ n, years = n + 1 := ⟨years - 1, by omega⟩
  have h1 := projectedFlows_getLast f g n
  have h2 : pydiv (f * (1 + g) ^ (n + 1) * (1 + tg)) (r - tg)
      = some (f * (1 + g) ^ (n + 1) * (1 + tg) / (r - tg)) := pydiv_eq_some _ _ hrt
  have h3 : (projectedFlows f g (n + 1)).enum
      = (List.range (n + 1)).map fun i => (i, f * (1 + g) ^ (i + 1)) := by
    rw [projectedFlows, enum_map_range]
  have h4 := mapM_pydiv_pow (1 + r) hr
    ((List.range (n + 1)).map fun i => (i, f * (1 + g) ^ (i + 1)))
  have h5 : pydiv (f * (1 + g) ^ (n + 1) * (1 + tg) / (r - tg)) ((1 + r) ^ (n + 1))
      = some (f * (1 + g) ^ (n + 1) * (1 + tg) / (r - tg) / (1 + r) ^ (n + 1)) :=
    pydiv_eq_some _ _ (pow_ne_zero _ hr)
  simp only [dcfEquity, hf, Option.some_bind, Option.bind_eq_bind, h1, h2, h3, h4, h5,
    hcd, List.map_map, dcfEV, dcfPresentValues, Function.comp]
  rfl

lemma dcf_valuation_eq (fd : FinancialData) (f c d s g r tg : ℚ) (years : ℕ)
    (hf : freeCashFlow fd.cash_flow = some f)
    (hcd : resolveCashDebt fd.balance_sheet = some (c, d))
    (hs : fd.info.sharesOutstanding.getD 1 = s) (hs0 : s ≠ 0)
    (hy : 1 ≤ years) (hrt : r - tg ≠ 0) (hr : (1 : ℚ) + r ≠ 0) :
    dcf_valuation fd g r tg years = some
      ⟨dcfEV f g r tg years, dcfEV f g r tg years + c - d,
       (dcfEV f g r tg years + c - d) / s,
       projectedFlows f g years, dcfPresentValues f g r years,
       f * (1 + g) ^ years * (1 + tg) / (r - tg)⟩ := by
  rw [dcf_valuation, dcfEquity_eq fd f c d g r tg years hf hcd hy hrt hr]
  simp [hs, pydiv_eq_some _ _ hs0]

/-! ## Claim C1 -/

/-- Claim C1, as stated, is false: with the share count absent from the
profile, `dcf_valuation` substitutes the constant 1 and emits a numeric
per-share value instead of reporting unavailable. -/
theorem C1_counterexample :
    fdNoShares.info.sharesOutstanding = none ∧
    (dcf_valuation fdNoShares (5/100) (1/10) (2/100) 5).isSome = true := by
  refine ⟨rfl, ?_⟩
  rw [dcf_valuation_eq fdNoShares 800 0 0 1 (5/100) (1/10) (2/100) 5 rfl rfl rfl
    (by norm_num) (by norm_num) (by norm_num) (by norm_num)]
  rfl

/-- Claim C1 amended: with a zero share count the per-share division raises
and each per-share method reports unavailable (P/E only on its net-income
fallback path); with the share count absent, the methods substitute 1 and
any emitted per-share value equals the equity value. -/
theorem C1_amended (fd : FinancialData) (market : Market) (peers : List String)
    (g r tg : ℚ) (years : ℕ) :
    (fd.info.sharesOutstanding = some 0 →
      dcf_valuation fd g r tg years = none ∧
      ev_ebitda_valuation fd market peers = none ∧
      (truthy fd.info.trailingEPS = false → pe_valuation fd market peers = none)) ∧
    (fd.info.sharesOutstanding = none →
      (∀ res, dcf_valuation fd g r tg years = some res →
        res.dcf_value_per_share = res.equity_value) ∧
      (∀ res, ev_ebitda_valuation fd market peers = some res →
        res.ev_ebitda_value_per_share = res.equity_value)) := by
  constructor
  · intro hs
    refine ⟨?_, ?_, ?_⟩
    · cases h : dcfEquity fd g r tg years with
      | none => simp [dcf_valuation, h]
      | some co => simp [dcf_valuation, h, hs, pydiv]
    · cases h1 : resolveEBITDA fd with
      | none => simp [ev_ebitda_valuation, h1]
      | some e =>
        cases h2 : resolveCashDebt fd.balance_sheet with
        | none => simp [ev_ebitda_valuation, h1, h2]
        | some cd => simp [ev_ebitda_valuation, h1, h2, hs, pydiv]
    · intro ht
      have hfall : epsFallback fd = none := by
        cases hni : getLast fd.income_stmt "Net Income" with
        | none => simp [epsFallback, hni]
        | some ni => simp [epsFallback, hni, hs, pydiv]
      have heps : resolveEPS fd = none := by
        cases he : fd.info.trailingEPS with
        | none => simp [resolveEPS, he, hfall]
        | some v =>
          have hv : v = 0 := by simpa [truthy, he] using ht
          simp [resolveEPS, he, hv, hfall]
      simp [pe_valuation, heps]
  · intro hs
    constructor
    · intro res hres
      cases h : dcfEquity fd g r tg years with
      | none => rw [dcf_valuation, h] at hres; simp at hres
      | some co =>
        have hthis : dcf_valuation fd g r tg years
            = some ⟨co.enterprise_value, co.equity_value, co.equity_value,
                co.projected_cash_flows, co.present_values, co.terminal_value⟩ := by
          simp [dcf_valuation, h, hs, pydiv]
        rw [hthis] at hres
        obtain rfl := (Option.some.inj hres).symm
        rfl
    · intro res hres
      cases h1 : resolveEBITDA fd with
      | none => rw [ev_ebitda_valuation] at hres; simp [h1] at hres
      | some e =>
        cases h2 : resolveCashDebt fd.balance_sheet with
        | none => rw [ev_ebitda_valuation] at hres; simp [h1, h2] at hres
        | some cd =>
          have hthis : ev_ebitda_valuation fd market peers
              = some ⟨e, chooseMultiple market peers Info.enterpriseToEbitda
                    fd.info.enterpriseToEbitda 10,
                  e * chooseMultiple market peers Info.enterpriseToEbitda
                    fd.info.enterpriseToEbitda 10,
                  e * chooseMultiple market peers Info.enterpriseToEbitda
                    fd.info.enterpriseToEbitda 10 + cd.1 - cd.2,
                  e * chooseMultiple market peers Info.enterpriseToEbitda
                    fd.info.enterpriseToEbitda 10 + cd.1 - cd.2⟩ := by
            simp [ev_ebitda_valuation, h1, h2, hs, pydiv]
          rw [hthis] at hres
          obtain rfl := (Option.some.inj hres).symm
          rfl

/-- Witness for the amended claim C1 at a concrete zero-share dataset. -/
theorem C1_witness :
    dcf_valuation fdZeroShares 0 1 0 1 = none ∧
    ev_ebitda_valuation fdZeroShares mktEmpty [] = none ∧
    pe_valuation fdZeroShares mktEmpty [] = none := by
  have h := (C1_amended fdZeroShares mktEmpty [] 0 1 0 1).1 rfl
  exact ⟨h.1, h.2.1, h.2.2 rfl⟩

/-! ## Claim C3 -/

/-- Claim C3, as stated, is false: with discountRate = 1/100 strictly below
terminalGrowthRate = 2/100 the DCF method still returns a numeric estimate
rather than unavailable. -/
theorem C3_counterexample :
    (1 : ℚ) / 100 ≤ 2 / 100 ∧
    (dcf_valuation fdWithShares (5/100) (1/100) (2/100) 5).isSome = true := by
  refine ⟨by norm_num, ?_⟩
  rw [dcf_valuation_eq fdWithShares 800 0 0 100 (5/100) (1/100) (2/100) 5 rfl rfl rfl
    (by norm_num) (by norm_num) (by norm_num) (by norm_num)]
  rfl

/-- Claim C3 amended: the DCF method enforces no constraint between the
rates; it reports unavailable when the two are exactly equal (the division
by zero raises and is caught), and otherwise returns a numeric estimate
whenever its inputs resolve. -/
theorem C3_amended (fd : FinancialData) (f c d s g r tg : ℚ) (years : ℕ) :
    (r = tg → dcf_valuation fd g r tg years = none) ∧
    (freeCashFlow fd.cash_flow = some f →
     resolveCashDebt fd.balance_sheet = some (c, d) →
     fd.info.sharesOutstanding.getD 1 = s → s ≠ 0 →
     1 ≤ years → r - tg ≠ 0 → (1 : ℚ) + r ≠ 0 →
     (dcf_valuation fd g r tg years).isSome = true) := by
  constructor
  · rintro rfl
    cases hfc : freeCashFlow fd.cash_flow with
    | none => simp [dcf_valuation, dcfEquity, hfc]
    | some fcf =>
      cases hl : (projectedFlows fcf g years).getLast? with
      | none => simp [dcf_valuation, dcfEquity, hfc, hl]
      | some last => simp [dcf_valuation, dcfEquity, hfc, hl, pydiv, sub_self]
  · intro hf hcd hs hs0 hy hrt hr
    rw [dcf_valuation_eq fd f c d s g r tg years hf hcd hs hs0 hy hrt hr]
    rfl

/-- Witness for the amended claim C3: equal rates give unavailable, a
strictly smaller discount rate still gives a numeric estimate. -/
theorem C3_witness :
    dcf_valuation fdWithShares 0 (2/100) (2/100) 5 = none ∧
    (dcf_valuation fdWithShares 0 (1/100) (2/100) 5).isSome = true := by
  constructor
  · exact (C3_amended fdWithShares 800 0 0 100 0 (2/100) (2/100) 5).1 rfl
  · exact (C3_amended fdWithShares 800 0 0 100 0 (1/100) (2/100) 5).2 rfl rfl rfl
      (by norm_num) (by norm_num) (by norm_num) (by norm_num)

/-! ## Claim C6 -/

/-- Claim C6, as stated, is false: with Cash And Cash Equivalents = 100
present but Total Debt absent, cash resolves to 0, not to 100 — the two
concepts share one try block rather than independent fallback chains. -/
theorem C6_counterexample :
    getLast bsOnlyCCE "Cash And Cash Equivalents" = some 100 ∧
    resolveCashDebt bsOnlyCCE = some (0, 0) ∧
    ((0 : ℚ), (0 : ℚ)) ≠ ((100 : ℚ), (0 : ℚ)) := by
  refine ⟨rfl, rfl, by norm_num [Prod.ext_iff]⟩

/-- Claim C6 amended: cash and debt resolve jointly — the primary pair
(Cash And Cash Equivalents, Total Debt) is used only when both are
readable; otherwise BOTH concepts fall to the fallback branch (Cash And
Short Term Investments else 0, Long Term Debt else 0). -/
theorem C6_amended (bs : Stmt) :
    (∀ c d, getLast bs "Cash And Cash Equivalents" = some c →
      getLast bs "Total Debt" = some d → resolveCashDebt bs = some (c, d)) ∧
    (getLast bs "Cash And Cash Equivalents" = none ∨ getLast bs "Total Debt" = none →
      resolveCashDebt bs = fallbackCashDebt bs) := by
  constructor
  · intro c d h1 h2
    simp [resolveCashDebt, h1, h2]
  · intro h
    rcases h with h | h
    · simp [resolveCashDebt, h]
    · cases h1 : getLast bs "Cash And Cash Equivalents" <;>
        simp [resolveCashDebt, h, h1]

/-- Witness for the amended claim C6 at a balance sheet missing the primary
pair but containing both fallback line items. -/
theorem C6_witness :
    resolveCashDebt bsFallback = fallbackCashDebt bsFallback ∧
    fallbackCashDebt bsFallback = some (7, 3) :=
  ⟨(C6_amended bsFallback).2 (Or.inl rfl), rfl⟩

/-! ## Claim C4 -/

lemma freeCashFlow_fdExample : freeCashFlow fdExample.cash_flow = some 800 := by
  simp [freeCashFlow, getLast, fdExample, List.lookup]
  norm_num

/-- Claim C4: when free cash flow, cash, debt and shares resolve,
discountRate exceeds terminalGrowthRate, the discount factor is nonzero
and there is at least one projection year, the DCF method returns exactly
the spec's reference per-share computation. -/
theorem C4_thm (fd : FinancialData) (f c d s g r tg : ℚ) (years : ℕ)
    (hf : freeCashFlow fd.cash_flow = some f)
    (hcd : resolveCashDebt fd.balance_sheet = some (c, d))
    (hs : fd.info.sharesOutstanding = some s) (hs0 : s ≠ 0)
    (hy : 1 ≤ years) (hrt : tg < r) (hr : (1 : ℚ) + r ≠ 0) :
    ∃ res, dcf_valuation fd g r tg years = some res ∧
      res.dcf_value_per_share = specDCFPerShare f c d s g r tg years := by
  have hrt2 : r - tg ≠ 0 := sub_ne_zero.mpr (ne_of_gt hrt)
  have hs2 : fd.info.sharesOutstanding.getD 1 = s := by simp [hs]
  refine ⟨_, dcf_valuation_eq fd f c d s g r tg years hf hcd hs2 hs0 hy hrt2 hr, ?_⟩
  simp only [specDCFPerShare, dcfEV, dcfPresentValues]

/-- Witness for claim C4: the spec's end-to-end example reproduces the
hand-computed per-share value 27571217/234256 (≈ 117.69). -/
theorem C4_witness :
    (dcf_valuation fdExample (5/100) (1/10) (2/100) 5).map DCFResult.dcf_value_per_share
      = some (specDCFPerShare 800 500 300 100 (5/100) (1/10) (2/100) 5) ∧
    specDCFPerShare 800 500 300 100 (5/100) (1/10) (2/100) 5 = 27571217/234256 := by
  constructor
  · obtain ⟨res, h1, h2⟩ := C4_thm fdExample 800 500 300 100 (5/100) (1/10) (2/100) 5
      freeCashFlow_fdExample rfl rfl (by norm_num) (by norm_num) (by norm_num) (by norm_num)
    rw [h1]
    simp [h2]
  · norm_num [specDCFPerShare, List.range_succ]

/-! ## Claim C7 -/

/-- Claim C7, as stated, is false: free cash flow 800 > 0 and discount
rate 1 > terminal growth 0, yet the DCF per-share value is −9992, because
debt exceeds enterprise value plus cash. -/
theorem C7_counterexample :
    freeCashFlow fdBigDebt.cash_flow = some 800 ∧ (0 : ℚ) < 800 ∧ (0 : ℚ) < 1 ∧
    (dcf_valuation fdBigDebt 0 1 0 1).map DCFResult.dcf_value_per_share = some (-9992) ∧
    ¬ (0 : ℚ) < -9992 := by
  refine ⟨rfl, by norm_num, by norm_num, ?_, by norm_num⟩
  rw [dcf_valuation_eq fdBigDebt 800 0 1000000 100 0 1 0 1 rfl rfl rfl (by norm_num)
    (by norm_num) (by norm_num) (by norm_num)]
  norm_num [dcfEV, dcfPresentValues, List.range_succ]

/-- Claim C7 amended: the DCF per-share value is strictly positive when,
in addition to positive free cash flow and discountRate >
terminalGrowthRate, the rates keep the compounding factors positive, debt
does not exceed cash, and the share count is positive. -/
theorem C7_amended (fd : FinancialData) (f c d s g r tg : ℚ) (years : ℕ)
    (hf : freeCashFlow fd.cash_flow = some f) (hfpos : 0 < f)
    (hg : (0 : ℚ) < 1 + g) (htg : (0 : ℚ) < 1 + tg) (hrt : tg < r)
    (hcd : resolveCashDebt fd.balance_sheet = some (c, d)) (hdc : d ≤ c)
    (hs : fd.info.sharesOutstanding = some s) (hspos : 0 < s)
    (hy : 1 ≤ years) :
    ∃ res, dcf_valuation fd g r tg years = some res ∧ 0 < res.dcf_value_per_share := by
  have hr1 : (0 : ℚ) < 1 + r := by linarith
  have hr : (1 : ℚ) + r ≠ 0 := ne_of_gt hr1
  have hrt2 : r - tg ≠ 0 := sub_ne_zero.mpr (ne_of_gt hrt)
  have hs2 : fd.info.sharesOutstanding.getD 1 = s := by simp [hs]
  refine ⟨_, dcf_valuation_eq fd f c d s g r tg years hf hcd hs2 (ne_of_gt hspos) hy hrt2 hr, ?_⟩
  have hsum : 0 ≤ (dcfPresentValues f g r years).sum := by
    apply List.sum_nonneg
    intro x hx
    simp only [dcfPresentValues, List.mem_map, List.mem_range] at hx
    obtain ⟨i, hi, rfl⟩ := hx
    exact le_of_lt (div_pos (mul_pos hfpos (pow_pos hg _)) (pow_pos hr1 _))
  have htv : 0 < f * (1 + g) ^ years * (1 + tg) / (r - tg) / (1 + r) ^ years := by
    have h0 : (0 : ℚ) < r - tg := by linarith
    exact div_pos (div_pos (mul_pos (mul_pos hfpos (pow_pos hg _)) htg) h0) (pow_pos hr1 _)
  have hev : 0 < dcfEV f g r tg years := by
    rw [dcfEV]
    linarith
  show 0 < (dcfEV f g r tg years + c - d) / s
  apply div_pos ?_ hspos
  linarith

/-- Witness for the amended claim C7 at the end-to-end example dataset. -/
theorem C7_witness :
    ((dcf_valuation fdExample (5/100) (1/10) (2/100) 5).map
      DCFResult.dcf_value_per_share).any (fun v => decide (0 < v)) = true := by
  obtain ⟨res, h1, h2⟩ := C7_amended fdExample 800 500 300 100 (5/100) (1/10) (2/100) 5
    freeCashFlow_fdExample (by norm_num) (by norm_num) (by norm_num) (by norm_num)
    rfl (by norm_num) rfl (by norm_num) (by norm_num)
  rw [h1]
  simpa using h2

/-! ## Claim C8 -/

lemma chooseMultiple_eq_specPE (fd : FinancialData) (market : Market) (peers : List String) :
    chooseMultiple market peers Info.trailingPE fd.info.trailingPE 15
      = specPEMultiple fd market peers := by
  unfold chooseMultiple specPEMultiple
  by_cases hp : peers = []
  · simp [hp]
    cases fd.info.trailingPE <;> simp
  · by_cases hr : peerPositives market peers Info.trailingPE = []
    · simp [hp, hr]
      cases fd.info.trailingPE <;> simp
    · simp [hp, hr]

/-- Claim C8: whenever EPS resolves, the P/E method's multiple follows the
spec's three-stage fallback (average of the peers' strictly positive
trailing P/Es, else the subject's own profile trailing P/E, else 15) and
the per-share value is EPS times that multiple. -/
theorem C8_thm (fd : FinancialData) (market : Market) (peers : List String) (e : ℚ)
    (he : resolveEPS fd = some e) :
    pe_valuation fd market peers
      = some ⟨e, specPEMultiple fd market peers, e * specPEMultiple fd market peers⟩ := by
  simp [pe_valuation, he, chooseMultiple_eq_specPE]

/-- Witness for claim C8: no peers, trailing EPS 5, trailing P/E absent
falls through to the default multiple 15 and yields 75. -/
theorem C8_witness :
    pe_valuation fdEPSOnly mktEmpty [] = some ⟨5, 15, 75⟩ ∧
    fdEPSOnly.info.trailingPE = none := by
  have he : resolveEPS fdEPSOnly = some 5 := by norm_num [resolveEPS, fdEPSOnly]
  have hm : specPEMultiple fdEPSOnly mktEmpty [] = 15 := by
    simp [specPEMultiple, fdEPSOnly]
  refine ⟨?_, rfl⟩
  rw [C8_thm fdEPSOnly mktEmpty [] 5 he, hm]
  norm_num

/-! ## Claim C10 -/

/-- Claim C10: a present-but-zero profile field is treated as absent at
each fallback point — current price 0 falls to the last historical close,
trailing EPS 0 falls to Net Income ÷ shares, book value 0 falls to Total
Stockholder Equity ÷ shares. -/
theorem C10_thm (fd : FinancialData) (cl ni te s : ℚ) :
    (fd.info.currentPrice = some 0 → fd.histClose.getLast? = some cl →
      currentPrice fd = Except.ok cl) ∧
    (fd.info.trailingEPS = some 0 → getLast fd.income_stmt "Net Income" = some ni →
      fd.info.sharesOutstanding = some s → s ≠ 0 → resolveEPS fd = some (ni / s)) ∧
    (fd.info.bookValue = some 0 → getLast fd.balance_sheet "Total Stockholder Equity" = some te →
      fd.info.sharesOutstanding = some s → s ≠ 0 → resolveBVPS fd = some (te / s)) := by
  refine ⟨?_, ?_, ?_⟩
  · intro h1 h2
    simp [currentPrice, lastClose, h1, h2]
  · intro h1 h2 h3 h4
    simp [resolveEPS, epsFallback, h1, h2, h3, pydiv_eq_some _ _ h4]
  · intro h1 h2 h3 h4
    simp [resolveBVPS, bvpsFallback, h1, h2, h3, pydiv_eq_some _ _ h4]

/-- Witness for claim C10 at a dataset with zero-valued profile fields. -/
theorem C10_witness :
    currentPrice fdFalsy = Except.ok 42 ∧ resolveEPS fdFalsy = some 5 ∧
    resolveBVPS fdFalsy = some 10 := by
  obtain ⟨w1, w2, w3⟩ := C10_thm fdFalsy 42 10 20 2
  refine ⟨w1 rfl rfl, ?_, ?_⟩
  · rw [w2 rfl rfl rfl (by norm_num)]
    norm_num
  · rw [w3 rfl rfl rfl (by norm_num)]
    norm_num

/-! ## Claim C9 -/

lemma peerPositives_eq_nil (market : Market) (peers : List String) (f : Info → Option ℚ)
    (h : peers = [] ∨ ∀ p ∈ peers, market p = none) :
    peerPositives market peers f = [] := by
  rcases h with rfl | h
  · rfl
  · rw [peerPositives, List.filterMap_eq_nil_iff]
    intro t ht
    simp [h t ht]

/-- Claim C9: with an empty peer list, or when every peer fetch fails, the
comparable-multiples method's output is unavailable (not a default-based
value) and the Market Multiples entry is absent from any produced report. -/
theorem C9_thm (market : Market) (ticker : String) (peers : List String)
    (h : peers = [] ∨ ∀ p ∈ peers, market p = none) :
    (market_multiples_valuation market ticker peers).average_valuation = none ∧
    (∀ rep, perform_valuation market ticker peers = Except.ok (some rep) → rep.mm = none) := by
  have havg : ∀ f, mmAverage market peers f = none := fun f => by
    simp [mmAverage, peerPositives_eq_nil market peers f h]
  have hmm : (market_multiples_valuation market ticker peers).average_valuation = none := by
    simp [market_multiples_valuation, havg]
  refine ⟨hmm, ?_⟩
  intro rep hrep
  cases hm : market ticker with
  | none =>
    simp [perform_valuation, hm] at hrep
  | some fd =>
    cases hcp : currentPrice fd with
    | error e =>
      simp [perform_valuation, hm, hcp] at hrep
    | ok p =>
      simp [perform_valuation, hm, hcp] at hrep
      subst hrep
      by_cases hp : peers = []
      · simp [buildReport, methodEntries, hp]
      · simp [buildReport, methodEntries, hp, hmm]

/-- Witness for claim C9: one peer whose fetch fails. -/
theorem C9_witness :
    (market_multiples_valuation mktEmpty "T" ["P"]).average_valuation = none :=
  (C9_thm mktEmpty "T" ["P"] (Or.inr fun _ _ => rfl)).1

/-! ## Claim C2 -/

lemma currentPrice_ok (fd : FinancialData)
    (h : truthy fd.info.currentPrice = true ∨ fd.histClose ≠ []) :
    ∃ p, currentPrice fd = Except.ok p := by
  rcases h with h | h
  · cases hc : fd.info.currentPrice with
    | none => simp [truthy, hc] at h
    | some v =>
      have hv : v ≠ 0 := by simpa [truthy, hc] using h
      exact ⟨v, by simp [currentPrice, hc, hv]⟩
  · obtain ⟨cl, hcl⟩ : ∃ cl, fd.histClose.getLast? = some cl :=
      Option.isSome_iff_exists.mp (List.getLast?_isSome.mpr h)
    cases hc : fd.info.currentPrice with
    | none => exact ⟨cl, by simp [currentPrice, lastClose, hc, hcl]⟩
    | some v =>
      by_cases hv : v = 0
      · exact ⟨cl, by simp [currentPrice, lastClose, hc, hv, hcl]⟩
      · exact ⟨v, by simp [currentPrice, hc, hv]⟩

/-- Claim C2, as stated, is false: when the profile lacks a current price
and the price history is empty, the failure inside current-price
determination escapes `perform_valuation` (modelled as `Except.error`). -/
theorem C2_counterexample : perform_valuation mktBare "B" [] = Except.error () := rfl

/-- Claim C2 amended: `perform_valuation` returns no-report on a failed
fetch and a report otherwise — without letting any method failure escape —
except that current-price determination itself raises when the profile
price is not truthy and the history is empty. -/
theorem C2_amended (market : Market) (ticker : String) (peers : List String) :
    (market ticker = none → perform_valuation market ticker peers = Except.ok none) ∧
    (∀ fd, market ticker = some fd →
      truthy fd.info.currentPrice = true ∨ fd.histClose ≠ [] →
      ∃ rep, perform_valuation market ticker peers = Except.ok (some rep)) := by
  constructor
  · intro h
    simp [perform_valuation, h]
  · intro fd hfd h
    obtain ⟨p, hp⟩ := currentPrice_ok fd h
    refine ⟨buildReport market ticker peers fd p, ?_⟩
    unfold perform_valuation
    simp only [hfd]
    rw [hp]
    rfl

/-- Witness for the amended claim C2: a successful run from the historical
close, and the no-report signal on a failed fetch. -/
theorem C2_witness :
    (∃ rep, perform_valuation mktHist "G" [] = Except.ok (some rep)) ∧
    perform_valuation mktHist "X" [] = Except.ok none := by
  constructor
  · exact (C2_amended mktHist "G" []).2 fdHistOnly rfl (Or.inr (by simp [fdHistOnly]))
  · exact (C2_amended mktHist "X" []).1 rfl

/-! ## Claim C5 -/

lemma dcf_fdMixed : dcf_valuation fdMixed (5/100) (1/10) (2/100) 5 = none := by
  simp [dcf_valuation, dcfEquity, freeCashFlow, getLast, fdMixed]

lemma resolveEPS_fdMixed : resolveEPS fdMixed = some (-5) := by
  norm_num [resolveEPS, fdMixed]

lemma peerPE_mktMixed : peerPositives mktMixed ["P"] Info.trailingPE = [2] := by
  have h1 : mktMixed "P" = some fdPeer := rfl
  have h2 : fdPeer.info.trailingPE = some 2 := rfl
  norm_num [peerPositives, h1, h2, List.filterMap_cons, List.filterMap_nil]

lemma pe_fdMixed : pe_valuation fdMixed mktMixed ["P"] = some ⟨-5, 2, -10⟩ := by
  norm_num [pe_valuation, resolveEPS_fdMixed, chooseMultiple, peerPE_mktMixed]

lemma resolveBVPS_fdMixed : resolveBVPS fdMixed = some 5 := by
  norm_num [resolveBVPS, fdMixed]

lemma peerPBV_mktMixed : peerPositives mktMixed ["P"] Info.priceToBook = [2] := by
  have h1 : mktMixed "P" = some fdPeer := rfl
  have h2 : fdPeer.info.priceToBook = some 2 := rfl
  norm_num [peerPositives, h1, h2, List.filterMap_cons, List.filterMap_nil]

lemma pbv_fdMixed : pbv_valuation fdMixed mktMixed ["P"] = some ⟨5, 2, 10⟩ := by
  norm_num [pbv_valuation, resolveBVPS_fdMixed, chooseMultiple, peerPBV_mktMixed]

lemma ebitda_fdMixed : resolveEBITDA fdMixed = some 1 := by
  have h1 : getLast fdMixed.income_stmt "EBIT" = none := rfl
  have h2 : getLast fdMixed.income_stmt "Income Before Tax" = some 1 := rfl
  have h3 : fdMixed.income_stmt.lookup "Interest Expense" = none := rfl
  simp [resolveEBITDA, h1, h2, h3]

lemma peerEV_mktMixed : peerPositives mktMixed ["P"] Info.enterpriseToEbitda = [] := by
  have h1 : mktMixed "P" = some fdPeer := rfl
  have h2 : fdPeer.info.enterpriseToEbitda = none := rfl
  simp [peerPositives, h1, h2]

lemma peerSales_mktMixed : peerPositives mktMixed ["P"] Info.enterpriseToRevenue = [] := by
  have h1 : mktMixed "P" = some fdPeer := rfl
  have h2 : fdPeer.info.enterpriseToRevenue = none := rfl
  simp [peerPositives, h1, h2]

lemma ev_fdMixed : ev_ebitda_valuation fdMixed mktMixed ["P"] = some ⟨1, 10, 10, 10, 10⟩ := by
  have h1 : resolveCashDebt fdMixed.balance_sheet = some (0, 0) := rfl
  have h2 : fdMixed.info.enterpriseToEbitda = none := rfl
  have h3 : fdMixed.info.sharesOutstanding = some 1 := rfl
  norm_num [ev_ebitda_valuation, ebitda_fdMixed, chooseMultiple, peerEV_mktMixed,
    h1, h2, h3, pydiv]

lemma mm_mktMixed : market_multiples_valuation mktMixed "T" ["P"]
    = ⟨some (-10), some 10, none, none, some 0⟩ := by
  have h1 : mktMixed "T" = some fdMixed := rfl
  norm_num [market_multiples_valuation, mmAverage, peerPE_mktMixed, peerPBV_mktMixed,
    peerEV_mktMixed, peerSales_mktMixed, h1, resolveEPS_fdMixed, resolveBVPS_fdMixed,
    List.filterMap_cons, List.filterMap_nil]
  exact fun h => absurd h (by simp)

lemma entries_fdMixed : methodEntries fdMixed mktMixed "T" ["P"]
    = (none, some (-10), some 10, some 10, none) := by
  unfold methodEntries
  rw [dcf_fdMixed, pe_fdMixed, pbv_fdMixed, ev_fdMixed, mm_mktMixed]
  simp

lemma buildReport_mktMixed : buildReport mktMixed "T" ["P"] fdMixed 1 = repMixed := by
  have h1 : fdMixed.info.longName = none := rfl
  norm_num [buildReport, entries_fdMixed, repMixed, h1,
    List.filterMap_cons, List.filterMap_nil]
  exact fun h => absurd h (by simp)

lemma perform_mktMixed :
    perform_valuation mktMixed "T" ["P"] = Except.ok (some repMixed) := by
  have hprice : currentPrice fdMixed = Except.ok 1 := by
    norm_num [currentPrice, fdMixed]
  unfold perform_valuation
  have hm : mktMixed "T" = some fdMixed := rfl
  simp only [hm]
  rw [hprice, ← buildReport_mktMixed]
  rfl

/-- Claim C5, as stated, is false: on the engineered market exactly four
methods succeed (P/E −10, P/BV 10, EV/EBITDA 10, Market Multiples 0), but
the Market Multiples value 0 is falsy and dropped, so the report's Average
is 10/3 instead of the mean 5/2 of the succeeded methods' values. -/
theorem C5_counterexample :
    succeededValues mktMixed fdMixed "T" ["P"] = [-10, 10, 10, 0] ∧
    (market_multiples_valuation mktMixed "T" ["P"]).average_valuation = some 0 ∧
    reportAverage (perform_valuation mktMixed "T" ["P"]) = some (10/3) ∧
    (10 : ℚ) / 3 ≠ ([(-10 : ℚ), 10, 10, 0].sum / ([(-10 : ℚ), 10, 10, 0].length : ℚ)) := by
  refine ⟨?_, by rw [mm_mktMixed], ?_, ?_⟩
  · unfold succeededValues
    rw [dcf_fdMixed, pe_fdMixed, pbv_fdMixed, ev_fdMixed, mm_mktMixed]
    simp
  · rw [perform_mktMixed]
    rfl
  · norm_num

/-- Claim C5 amended: the report's Average is the arithmetic mean of
exactly the method entries actually emitted in the report (a Market
Multiples success with value exactly 0 being dropped as falsy), and no
Average is emitted when no method entry is. -/
theorem C5_amended (market : Market) (ticker : String) (peers : List String)
    (fd : FinancialData) (rep : Report)
    (h1 : market ticker = some fd)
    (h2 : perform_valuation market ticker peers = Except.ok (some rep)) :
    rep.average = if emittedValues rep = [] then none
      else some ((emittedValues rep).sum / (emittedValues rep).length) := by
  cases hcp : currentPrice fd with
  | error e =>
    simp [perform_valuation, h1, hcp] at h2
  | ok p =>
    simp [perform_valuation, h1, hcp] at h2
    subst h2
    rfl

/-- Witness for the amended claim C5 at the engineered market. -/
theorem C5_witness :
    repMixed.average = if emittedValues repMixed = [] then none
      else some ((emittedValues repMixed).sum / (emittedValues repMixed).length) :=
  C5_amended mktMixed "T" ["P"] fdMixed repMixed rfl perform_mktMixed

end CompanyValuation
